import Mathlib

/-!
Verification of the event ingestion and scoring pipeline of the
TestingWellcode repository (src/eventProcessor.ts), via a shallow
embedding in Lean 4.  Pure helper functions of the source are embedded
as Lean functions; database-mutating operations are embedded as
functions on an explicit database state `DB`.  Operations that can
throw (Prisma update on a missing row, encryption failures, missing
payload fields dereferenced by the source) are embedded in
`Except DB DB`, where the error value carries the database state at the
moment the exception is raised, so that catch-and-swallow blocks of the
source can be modelled faithfully.
-/

/-! ## Basic data model (mirrors the Prisma entities used by eventProcessor.ts) -/

/-- The persisted pull-request state enumeration. -/
inductive PRState where
  | OPEN
  | CLOSED
  | MERGED
deriving DecidableEq, Repr

/-- An Account row (id, name, type, installationId). -/
structure Account where
  id : String
  name : String
  type : String
  installationId : String
deriving DecidableEq, Repr

/-- A Repository row. -/
structure Repository where
  id : String
  name : String
  fullName : String
  accountId : String
deriving DecidableEq, Repr

/-- A User row.  Points are an integer counter; level a derived field. -/
structure User where
  id : String
  login : String
  email : Option String
  name : Option String
  accountId : String
  points : Int
  level : Int
deriving DecidableEq, Repr

/-- A UserOrganization row, unique per (userId, accountId) pair. -/
structure UserOrganization where
  userId : String
  accountId : String
  role : String
deriving DecidableEq, Repr

/-- A PullRequest row (the fields the verified operations touch). -/
structure PullRequest where
  id : String
  number : Nat
  title : String
  description : Option String
  repositoryId : String
  authorId : String
  state : PRState
  reviewerIds : List String
  firstCommitAt : Option Int
  overallScore : Option ℚ
  pointsAwarded : Option Int
deriving DecidableEq, Repr

/-- A Commit row as created by the commit linker. -/
structure Commit where
  id : String
  sha : String
  message : String
  authorId : String
  repositoryId : String
  committedAt : Int
deriving DecidableEq, Repr

/-- A PullRequestFile row. -/
structure PRFileRow where
  pullRequestId : String
  filename : String
  status : String
  additions : Int
  deletions : Int
  changes : Int
  patch : Option String
deriving DecidableEq, Repr

/-- An append-only PointTransaction ledger entry. -/
structure PointTransaction where
  userId : String
  accountId : String
  amount : Int
  reason : String
  referenceId : String
  referenceType : String
deriving DecidableEq, Repr

/-- The database state: one list of rows per entity.  The many-to-many
pullRequests-commits relation is the list of (prId, commitId) pairs. -/
structure DB where
  accounts : List Account
  repos : List Repository
  users : List User
  userOrgs : List UserOrganization
  prs : List PullRequest
  commits : List Commit
  prCommitLinks : List (String × String)
  prFiles : List PRFileRow
  transactions : List PointTransaction
deriving DecidableEq, Repr

/-! ## Row lookup helpers (findUnique / findFirst analogues) -/

def getAccount (db : DB) (accountId : String) : Option Account :=
  db.accounts.find? (fun a => a.id == accountId)

def getRepo (db : DB) (repoId : String) : Option Repository :=
  db.repos.find? (fun r => r.id == repoId)

def getUser (db : DB) (userId : String) : Option User :=
  db.users.find? (fun u => u.id == userId)

def getMembership (db : DB) (userId accountId : String) : Option UserOrganization :=
  db.userOrgs.find? (fun m => m.userId == userId && m.accountId == accountId)

def getPR (db : DB) (prId : String) : Option PullRequest :=
  db.prs.find? (fun p => p.id == prId)

/-- prisma.commit.findFirst with OR [sha = x, id = x]. -/
def findCommitBySha (db : DB) (sha : String) : Option Commit :=
  db.commits.find? (fun c => c.sha == sha || c.id == sha)

/-- Whether a commit is connected to a PR in the many-to-many relation. -/
def isLinked (db : DB) (prId commitId : String) : Bool :=
  db.prCommitLinks.any (fun l => l.1 == prId && l.2 == commitId)

/-- All commits currently linked to a PR, in table order. -/
def linkedCommits (db : DB) (prId : String) : List Commit :=
  db.commits.filter (fun c => isLinked db prId c.id)

/-- The PullRequestFile rows persisted for one PR, in table order. -/
def filesFor (db : DB) (prId : String) : List PRFileRow :=
  db.prFiles.filter (fun f => f.pullRequestId == prId)

/-- Update every row of a list that satisfies a predicate. -/
def updateWhere {α : Type} (p : α → Bool) (f : α → α) (l : List α) : List α :=
  l.map (fun a => if p a then f a else a)

/-! ## Pure helper functions of eventProcessor.ts -/

/-- Substring containment on strings (the semantics of
JavaScript String.prototype.includes). -/
def strContains (hay needle : String) : Bool :=
  (List.range (hay.data.length + 1)).any
    (fun i => needle.data.isPrefixOf (hay.data.drop i))

/-- isRetryableError (eventProcessor.ts line 1786): an error is retryable
unless its message contains one of three fixed fragments. -/
def isRetryableError (message : String) : Bool :=
  !(strContains message "not found") &&
  !(strContains message "invalid signature") &&
  !(strContains message "already exists")

/-- mapPRState (eventProcessor.ts line 1261). -/
def mapPRState (state : String) (merged : Bool) : PRState :=
  if merged then .MERGED
  else if state = "open" then .OPEN else .CLOSED

/-! ## Description encryption (storePullRequest / updatePullRequestStatus)

The encryption capability is a parameter: `enc` returns either a
ciphertext or a thrown error message, and `isEnc` is the pure
content-format sniff. -/

/-- The description value persisted by storePullRequest
(eventProcessor.ts lines 1214-1221), given the raw payload body.
The source computes the ternary
shouldEncrypt and description and not isEncrypted(description)
BEFORE its try block, so a thrown encryption error propagates out
(modelled as Except.error). -/
def storePullRequestDescription (enc : String → Except String String)
    (isEnc : String → Bool) (state : PRState) (body : Option String) :
    Except String (Option String) :=
  -- prData.body || null : the empty string is falsy in JavaScript
  let description : Option String :=
    match body with
    | some s => if s = "" then none else some s
    | none => none
  let shouldEncrypt : Bool := state = PRState.CLOSED ∨ state = PRState.MERGED
  match description with
  | some d =>
      if shouldEncrypt && !(isEnc d) then (enc d).map some
      else .ok (some d)
  | none => .ok none

/-- The description value persisted by updatePullRequestStatus
(eventProcessor.ts lines 1283-1293): encryption failures are caught and
the original plaintext is kept. -/
def updateStatusDescription (enc : String → Except String String)
    (isEnc : String → Bool) (desc : Option String) : Option String :=
  match desc with
  | some d =>
      -- description && !isEncrypted(description): empty string is falsy
      if d ≠ "" && !(isEnc d) then
        match enc d with
        | .ok e => some e
        | .error _ => some d -- keep original description if encryption fails
      else some d
  | none => none

/-! ## Account-id resolution (one block per webhook handler) -/

/-- The four candidate ids a webhook payload may carry. -/
structure WebhookIds where
  installationAccountId : Option Nat
  organizationId : Option Nat
  repositoryOwnerId : Option Nat
  senderId : Option Nat
deriving DecidableEq, Repr

/-- Account-id extraction in handlePullRequestEvent
(eventProcessor.ts lines 200-217). -/
def resolveAccountIdPullRequest (p : WebhookIds) : Option String :=
  match p.installationAccountId with
  | some i => some (toString i)
  | none =>
    match p.organizationId with
    | some i => some (toString i)
    | none =>
      match p.repositoryOwnerId with
      | some i => some (toString i)
      | none =>
        match p.senderId with
        | some i => some (toString i)
        | none => none

/-- Account-id extraction in handleReviewEvent
(eventProcessor.ts lines 553-570): same four-step chain. -/
def resolveAccountIdReview (p : WebhookIds) : Option String :=
  match p.installationAccountId with
  | some i => some (toString i)
  | none =>
    match p.organizationId with
    | some i => some (toString i)
    | none =>
      match p.repositoryOwnerId with
      | some i => some (toString i)
      | none =>
        match p.senderId with
        | some i => some (toString i)
        | none => none

/-- Account-id extraction in handleIssueCommentEvent
(eventProcessor.ts lines 1006-1023): same four-step chain. -/
def resolveAccountIdIssueComment (p : WebhookIds) : Option String :=
  match p.installationAccountId with
  | some i => some (toString i)
  | none =>
    match p.organizationId with
    | some i => some (toString i)
    | none =>
      match p.repositoryOwnerId with
      | some i => some (toString i)
      | none =>
        match p.senderId with
        | some i => some (toString i)
        | none => none

/-- Account-id extraction in handlePushEvent
(eventProcessor.ts lines 650-661): this handler starts at
payload.organization.id and never consults installation.account.id. -/
def resolveAccountIdPush (p : WebhookIds) : Option String :=
  match p.organizationId with
  | some i => some (toString i)
  | none =>
    match p.repositoryOwnerId with
    | some i => some (toString i)
    | none =>
      match p.senderId with
      | some i => some (toString i)
      | none => none

/-- Modelled from the spec wording of section 4.1: the fixed
account-id precedence order (1) installation.account.id,
(2) organization.id, (3) repository.owner.id, (4) sender.id.
Used as the reference the per-handler extractions are compared with. -/
def specAccountIdOrder (p : WebhookIds) : Option String :=
  match p.installationAccountId with
  | some i => some (toString i)
  | none =>
    match p.organizationId with
    | some i => some (toString i)
    | none =>
      match p.repositoryOwnerId with
      | some i => some (toString i)
      | none =>
        match p.senderId with
        | some i => some (toString i)
        | none => none

/-! ## Registrar: ensureUserExists (eventProcessor.ts lines 1134-1212) -/

/-- The Account row created by the account-bootstrap step of
ensureUserExists: name falls back to the login, type defaults to
ORGANIZATION, installationId to the literal "unknown". -/
def bootstrapAccountFromLogin (accountId login : String) : Account :=
  { id := accountId, name := login, type := "ORGANIZATION",
    installationId := "unknown" }

/-- ensureUserExists(userId, login, accountId): bootstrap the account if
absent, then create the user (points 0, level 1) plus a membership row,
or, when the user already exists, add only the missing membership. -/
def ensureUserExists (userId login accountId : String) (db : DB) : DB :=
  let db1 : DB :=
    match getAccount db accountId with
    | some _ => db
    | none => { db with accounts := db.accounts ++ [bootstrapAccountFromLogin accountId login] }
  let newUser : User :=
    { id := userId, login := login, email := none, name := none,
      accountId := accountId, points := 0, level := 1 }
  let newMember : UserOrganization :=
    { userId := userId, accountId := accountId, role := "member" }
  match getUser db1 userId with
  | none =>
      let db2 : DB := { db1 with users := db1.users ++ [newUser] }
      { db2 with userOrgs := db2.userOrgs ++ [newMember] }
  | some _ =>
      match getMembership db1 userId accountId with
      | some _ => db1
      | none => { db1 with userOrgs := db1.userOrgs ++ [newMember] }

/-! ## Points and leveling ledger -/

/-- checkAndUpdateUserLevel (eventProcessor.ts lines 1768-1784):
candidate level is floor(points / 100) + 1, stored only when strictly
greater than the current level. -/
def checkAndUpdateUserLevel (userId : String) (_accountId : String) (db : DB) : DB :=
  match getUser db userId with
  | none => db
  | some u =>
      let newLevel := u.points.fdiv 100 + 1
      if newLevel > u.level then
        { db with users := updateWhere (fun v => v.id == userId)
                             (fun v => { v with level := newLevel }) db.users }
      else db

/-- The state after incrementing the points of the rows with a given
user id. -/
def incrPointsDB (db : DB) (target : String) (pts : Int) : DB :=
  let newUsers :=
    updateWhere (fun v => v.id == target)
      (fun v => { v with points := v.points + pts }) db.users
  { db with users := newUsers }

/-- prisma.user.update with where (id, accountId) and a points
increment (eventProcessor.ts lines 1391-1399).  Prisma throws when no
row matches the compound filter; the model returns none then. -/
def updateUserPointsScoped (db : DB) (userId accountId : String) (pts : Int) :
    Option DB :=
  match getUser db userId with
  | none => none
  | some u =>
      if u.accountId = accountId then some (incrPointsDB db userId pts)
      else none

/-- prisma.user.update with where (id) only and a points increment
(eventProcessor.ts lines 1496-1501). -/
def updateUserPointsById (db : DB) (userId : String) (pts : Int) : Option DB :=
  match getUser db userId with
  | none => none
  | some _ => some (incrPointsDB db userId pts)

/-- Append one PointTransaction ledger row. -/
def addTransaction (db : DB) (t : PointTransaction) : DB :=
  { db with transactions := db.transactions ++ [t] }

/-- prisma.pullRequest.update setting pointsAwarded. -/
def setPointsAwarded (db : DB) (prId : String) (pts : Int) : DB :=
  { db with prs := updateWhere (fun p => p.id == prId)
              (fun p => { p with pointsAwarded := some pts }) db.prs }

/-- calculateAndAwardPoints (eventProcessor.ts lines 1356-1422).
A thrown Prisma error is Except.error carrying the state at the throw;
early returns are Except.ok with the state unchanged.  Note the guard
(not pr or not pr.overallScore): a missing OR ZERO overallScore returns
early, because the number 0 is falsy in JavaScript. -/
def calculateAndAwardPoints (prId : String) (db : DB) : Except DB DB :=
  match getPR db prId with
  | none => .ok db
  | some pr =>
    match pr.overallScore with
    | none => .ok db
    | some score =>
      if score = 0 then .ok db
      else
        match getRepo db pr.repositoryId with
        | none => .error db -- include of the required repository relation failed
        | some repo =>
          match getMembership db pr.authorId repo.accountId with
          | none => .ok db -- authorization gate: log error and return
          | some _ =>
            let points : Int := round score
            match updateUserPointsScoped db pr.authorId repo.accountId points with
            | none => .error db
            | some db1 =>
              let db2 := addTransaction db1
                { userId := pr.authorId, accountId := repo.accountId,
                  amount := points, reason := "pr_merged",
                  referenceId := prId, referenceType := "pullrequest" }
              let db3 := setPointsAwarded db2 prId points
              .ok (checkAndUpdateUserLevel pr.authorId repo.accountId db3)

/-- The per-state review point table of awardPointsForReview
(eventProcessor.ts lines 1473-1479). -/
def reviewPoints (reviewState : String) : Int :=
  match reviewState with
  | "APPROVED" => 10
  | "CHANGES_REQUESTED" => 15
  | "COMMENTED" => 5
  | _ => 0

/-- awardPointsForReview (eventProcessor.ts lines 1471-1519). -/
def awardPointsForReview (userId prId : String) (reviewState : String)
    (db : DB) : Except DB DB :=
  let points := reviewPoints reviewState
  if points > 0 then
    match getPR db prId with
    | none => .ok db -- PR not found when awarding review points
    | some pr =>
      match getRepo db pr.repositoryId with
      | none => .error db
      | some repo =>
        match updateUserPointsById db userId points with
        | none => .error db
        | some db1 =>
          let db2 := addTransaction db1
            { userId := userId, accountId := repo.accountId,
              amount := points, reason := "review_submitted",
              referenceId := prId, referenceType := "pullrequest" }
          .ok (checkAndUpdateUserLevel userId repo.accountId db2)
  else .ok db

/-- Collapse a caught-or-finished computation to the resulting state:
both the success path and the swallowed-exception path leave a state. -/
def runE (e : Except DB DB) : DB :=
  match e with
  | .ok db => db
  | .error db => db

/-! ## storePullRequestFiles (eventProcessor.ts lines 1890-1923) -/

/-- The file payload shape consumed from the GitHub capability. -/
structure FileData where
  filename : String
  status : String
  additions : Int
  deletions : Int
  changes : Int
  patch : Option String
deriving DecidableEq, Repr

/-- The row inserted for one file of a PR. -/
def mkFileRow (prId : String) (f : FileData) : PRFileRow :=
  { pullRequestId := prId, filename := f.filename, status := f.status,
    additions := f.additions, deletions := f.deletions,
    changes := f.changes, patch := f.patch }

/-- storePullRequestFiles: an empty list returns early WITHOUT deleting
existing rows; otherwise all rows of the PR are deleted and the new set
is inserted. -/
def storePullRequestFiles (prId : String) (files : List FileData) (db : DB) : DB :=
  if files.isEmpty then db
  else
    let kept := db.prFiles.filter (fun f => !(f.pullRequestId == prId))
    { db with prFiles := kept ++ files.map (mkFileRow prId) }

/-! ## Commit linker (linkCommitsToPullRequest, eventProcessor.ts lines 381-538)

The GitHub capability result is passed in as a list of commit payloads.
The whole body of the source function runs inside one try block whose
catch logs and swallows, so the embedding folds the per-commit steps in
Except DB DB and collapses the error case to the state reached at the
throw, skipping the final firstCommitAt recomputation exactly as the
source does. -/

/-- The author shape present on a commit payload (top-level author or
commit.author). -/
structure AuthorData where
  id : Option Nat
  login : Option String
  name : Option String
  email : Option String
deriving DecidableEq, Repr

/-- One commit payload from getPullRequestCommits.  commitAuthorDate is
commit.author.date; when it is absent the source throws while building
the Date for prisma.commit.create. -/
structure CommitData where
  sha : String
  message : String
  author : Option AuthorData
  commitAuthor : Option AuthorData
  commitAuthorDate : Option Int
deriving DecidableEq, Repr

/-- The author-matching filter of the placeholder-user lookup:
OR of (id = authorData.id), (login = authorData.login || authorData.name)
and, when an email is present, (email = authorData.email).  A Prisma
filter whose value is undefined is dropped, which turns that OR operand
into the empty condition matching every row; the model keeps that
semantics. -/
def userMatchesAuthor (a : AuthorData) (u : User) : Bool :=
  (match a.id with
   | none => true
   | some i => u.id == toString i) ||
  (match (match a.login with | some l => some l | none => a.name) with
   | none => true
   | some l => u.login == l) ||
  (match a.email with
   | none => false
   | some e => u.email == some e)

def findUserByAuthor (db : DB) (a : AuthorData) : Option User :=
  db.users.find? (userMatchesAuthor a)

/-- Connect a commit to a PR in the many-to-many relation. -/
def addLink (db : DB) (prId commitId : String) : DB :=
  { db with prCommitLinks := db.prCommitLinks ++ [(prId, commitId)] }

/-- The placeholder user synthesized for an unmatched commit author;
the time argument stands for Date.now().  Points and level are the
schema defaults. -/
def placeholderUser (a : AuthorData) (accountId : String) (time : Nat) : User :=
  { id := match a.id with
          | some i => toString i
          | none => "commit-author-" ++ toString time,
    login := match (match a.login with | some l => some l | none => a.name) with
             | some l => l
             | none => "unknown-" ++ toString time,
    email := a.email, name := a.name, accountId := accountId,
    points := 0, level := 1 }

/-- Process one commit of the fetched list: link an existing commit, or
synthesize the commit (and possibly a placeholder author) pre-linked to
the PR. -/
def processOneCommit (prId : String) (time : Nat) (db : DB) (c : CommitData) :
    Except DB DB :=
  match findCommitBySha db c.sha with
  | some commit =>
      match getPR db prId with
      | none => .error db -- pullRequest.update on a missing PR throws
      | some _ =>
          if isLinked db prId commit.id then .ok db
          else .ok (addLink db prId commit.id)
  | none =>
      match getPR db prId with
      | none => .ok db -- cannot create commit: PR not found, continue
      | some pr =>
        match getRepo db pr.repositoryId with
        | none => .error db -- pr.repository.accountId dereference throws
        | some repo =>
          match (match c.author with | some a => some a | none => c.commitAuthor) with
          | none => .ok db -- no author data for commit, continue
          | some a =>
            let db1 : DB :=
              match findUserByAuthor db a with
              | some _ => db
              | none => { db with users := db.users ++ [placeholderUser a repo.accountId time] }
            let authorId : String :=
              match findUserByAuthor db a with
              | some u => u.id
              | none => (placeholderUser a repo.accountId time).id
            match c.commitAuthorDate with
            | none => .error db1 -- new Date(commitData.commit.author.date) throws
            | some date =>
                let newCommit : Commit :=
                  { id := c.sha, sha := c.sha, message := c.message,
                    authorId := authorId, repositoryId := pr.repositoryId,
                    committedAt := date }
                .ok (addLink { db1 with commits := db1.commits ++ [newCommit] } prId c.sha)

/-- Fold the per-commit steps, stopping at the first thrown error. -/
def foldE {α : Type} (f : DB → α → Except DB DB) : DB → List α → Except DB DB
  | db, [] => .ok db
  | db, a :: rest =>
      match f db a with
      | .error e => .error e
      | .ok db1 => foldE f db1 rest

/-- findFirst ordered by committedAt ascending: the first row of the
list among those with minimal committedAt. -/
def pickEarliest (l : List Commit) : Option Commit :=
  l.foldl (fun acc c =>
    match acc with
    | none => some c
    | some b => if c.committedAt < b.committedAt then some c else some b) none

def earliestLinked (db : DB) (prId : String) : Option Commit :=
  pickEarliest (linkedCommits db prId)

/-- prisma.pullRequest.update setting firstCommitAt. -/
def setFirstCommitAt (db : DB) (prId : String) (t : Int) : DB :=
  { db with prs := updateWhere (fun p => p.id == prId)
              (fun p => { p with firstCommitAt := some t }) db.prs }

/-- linkCommitsToPullRequest: link every fetched commit, then recompute
firstCommitAt from the earliest linked commit.  Any error, anywhere in
the body, is logged and swallowed (the state reached so far is kept and
the recomputation is skipped). -/
def linkCommitsToPullRequest (prId : String) (prCommits : List CommitData)
    (time : Nat) (db : DB) : DB :=
  if prCommits.isEmpty then db
  else
    match foldE (processOneCommit prId time) db prCommits with
    | .error dbe => dbe -- catch: log and swallow
    | .ok db1 =>
      match earliestLinked db1 prId with
      | none => db1
      | some c =>
          match getPR db1 prId with
          | none => db1 -- the final update throws and is swallowed
          | some _ => setFirstCommitAt db1 prId c.committedAt

/-! ## Concrete states used by witnesses and counterexamples -/

/-- The empty database. -/
def emptyDB : DB :=
  { accounts := [], repos := [], users := [], userOrgs := [], prs := [],
    commits := [], prCommitLinks := [], prFiles := [], transactions := [] }

/-- An encryption capability that always succeeds by tagging the text. -/
def encTag : String → Except String String := fun s => .ok ("enc:" ++ s)

/-- An encryption capability that always throws. -/
def encAlwaysFail : String → Except String String :=
  fun _ => .error "ENCRYPTION_KEY missing"

/-- A content-format sniff that never recognizes text as encrypted. -/
def isEncNever : String → Bool := fun _ => false

/-- The account used by the award scenarios. -/
def accountA : Account :=
  { id := "A", name := "acme", type := "ORGANIZATION", installationId := "i1" }

/-- The repository of the award scenarios, owned by account A. -/
def repoAward : Repository :=
  { id := "r1", name := "repo", fullName := "acme/repo", accountId := "A" }

/-- The PR author of the award scenarios, homed in account A. -/
def userAward : User :=
  { id := "ua", login := "alice", email := none, name := none,
    accountId := "A", points := 40, level := 1 }

/-- The membership of the author in account A. -/
def memberAward : UserOrganization :=
  { userId := "ua", accountId := "A", role := "member" }

/-- A merged PR with overall score 85. -/
def prAward : PullRequest :=
  { id := "p1", number := 7, title := "t", description := none,
    repositoryId := "r1", authorId := "ua", state := .MERGED,
    reviewerIds := [], firstCommitAt := none,
    overallScore := some 85, pointsAwarded := none }

/-- A base state for the point-award scenarios. -/
def dbAward : DB :=
  { emptyDB with
    accounts := [accountA], repos := [repoAward],
    users := [userAward], userOrgs := [memberAward], prs := [prAward] }

/-- dbAward with the membership row removed (authorization gate case). -/
def dbAwardNoOrg : DB := { dbAward with userOrgs := [] }

/-- The p1 row with overall score zero (falsy in JavaScript). -/
def prZeroScore : PullRequest := { prAward with overallScore := some 0 }

/-- dbAward with overall score zero. -/
def dbAwardZero : DB := { dbAward with prs := [prZeroScore] }

/-- The author homed in account C while the PR repository belongs to A. -/
def userHomeC : User := { userAward with accountId := "C" }

/-- dbAward with the author homed in another account: the membership row
for account A is present, but the scoped points update matches no row. -/
def dbAwardMismatch : DB :=
  { dbAward with
    users := [userHomeC],
    prs := [{ prAward with overallScore := some 50 }] }

/-- The reviewer of the review scenario, with 95 points. -/
def reviewerUser : User :=
  { id := "rv", login := "rex", email := none, name := none,
    accountId := "A", points := 95, level := 1 }

/-- A review scenario: reviewer rv with 95 points reviews PR p1. -/
def dbReview : DB := { dbAward with users := [reviewerUser] }

/-- A pre-existing file row for PR 1, used by the replacement scenarios. -/
def oldFileRow : PRFileRow :=
  { pullRequestId := "1", filename := "old.txt", status := "removed",
    additions := 0, deletions := 3, changes := 3, patch := none }

def dbFiles : DB := { emptyDB with prFiles := [oldFileRow] }

/-- One new file payload. -/
def newFile : FileData :=
  { filename := "a.ts", status := "added", additions := 5, deletions := 0,
    changes := 5, patch := some "@@" }

/-- The commit-author user bob (GitHub id 7). -/
def bobUser : User :=
  { id := "7", login := "bob", email := some "bob@x.io", name := some "Bob",
    accountId := "A", points := 0, level := 1 }

/-- The commit s1 already present in the table (unlinked). -/
def commitS1 : Commit :=
  { id := "s1", sha := "s1", message := "m1", authorId := "7",
    repositoryId := "r1", committedAt := 50 }

/-- Commit-linking scenario: PR p1 under repository r1, one commit s1
already in the table (unlinked), author bob present. -/
def dbLink : DB :=
  { dbAward with users := dbAward.users ++ [bobUser], commits := [commitS1] }

/-- The author payload for bob (GitHub id 7). -/
def bobAuthor : AuthorData :=
  { id := some 7, login := some "bob", name := some "Bob",
    email := some "bob@x.io" }

/-- Three upstream commits: s1 exists locally, s2 and s3 do not. -/
def csLink : List CommitData :=
  [{ sha := "s1", message := "m1", author := some bobAuthor,
     commitAuthor := some bobAuthor, commitAuthorDate := some 50 },
   { sha := "s2", message := "m2", author := some bobAuthor,
     commitAuthor := some bobAuthor, commitAuthorDate := some 30 },
   { sha := "s3", message := "m3", author := some bobAuthor,
     commitAuthor := some bobAuthor, commitAuthorDate := some 70 }]

/-- A commit payload whose commit.author.date is missing: building the
Date for prisma.commit.create throws. -/
def badDateCommit : CommitData :=
  { sha := "s4", message := "m4", author := some bobAuthor,
    commitAuthor := none, commitAuthorDate := none }

/-- A fetched list whose second commit payload lacks the commit author
date: the first commit is linked, then the loop throws and the error is
swallowed, skipping the firstCommitAt recomputation. -/
def csLinkBad : List CommitData :=
  [{ sha := "s1", message := "m1", author := some bobAuthor,
     commitAuthor := some bobAuthor, commitAuthorDate := some 50 },
   badDateCommit]

/-- The user of the ensureUserExists frame scenarios, homed in A. -/
def userEnsure : User :=
  { id := "u1", login := "uno", email := none, name := none,
    accountId := "A", points := 3, level := 1 }

/-- State for the ensureUserExists frame scenarios: user u1 homed in
account A; account B does not exist. -/
def dbEnsure : DB :=
  { emptyDB with
    accounts := [accountA], users := [userEnsure],
    userOrgs := [{ userId := "u1", accountId := "A", role := "member" }] }

/-- A payload carrying both an installation account id and an
organization id. -/
def payloadBoth : WebhookIds :=
  { installationAccountId := some 1, organizationId := some 2,
    repositoryOwnerId := none, senderId := none }

/-! ## Sequences of point-award operations (for the level invariant) -/

/-- One point-award operation of the ledger: a PR merge award or a
review award. -/
inductive LedgerOp where
  | merge (prId : String)
  | review (reviewer prId reviewState : String)

/-- Run one ledger operation; a thrown error is swallowed by the router
with the state reached at the throw. -/
def applyLedgerOp (db : DB) : LedgerOp → DB
  | .merge prId => runE (calculateAndAwardPoints prId db)
  | .review reviewer prId st => runE (awardPointsForReview reviewer prId st db)

/-- Run a sequence of ledger operations. -/
def applyLedgerOps (db : DB) : List LedgerOp → DB
  | [] => db
  | op :: rest => applyLedgerOps (applyLedgerOp db op) rest

/-! ## Generic lemmas about updateWhere and find? -/

/-- Updating the rows a predicate selects, with a row function that
preserves the predicate, maps the found row. -/
theorem find?_updateWhere_self {α : Type} (p : α → Bool) (f : α → α)
    (hp : ∀ a, p (f a) = p a) (l : List α) :
    (updateWhere p f l).find? p = (l.find? p).map f := by
  induction l with
  | nil => rfl
  | cons a t ih =>
      show List.find? p ((if p a then f a else a) :: updateWhere p f t)
             = (List.find? p (a :: t)).map f
      obtain hpa | hpa := Bool.eq_false_or_eq_true (p a)
      · rw [if_pos hpa]
        rw [List.find?_cons_of_pos _ (by rw [hp]; exact hpa)]
        rw [List.find?_cons_of_pos _ hpa]
        rfl
      · rw [if_neg (by simp [hpa])]
        rw [List.find?_cons_of_neg _ (by simp [hpa])]
        rw [List.find?_cons_of_neg _ (by simp [hpa])]
        exact ih

/-- Updating rows selected by a predicate disjoint from the query
predicate leaves the query result unchanged. -/
theorem find?_updateWhere_disjoint {α : Type} (p q : α → Bool) (f : α → α)
    (hq : ∀ a, q (f a) = q a) (hdisj : ∀ a, q a = true → p a = false)
    (l : List α) :
    (updateWhere p f l).find? q = l.find? q := by
  induction l with
  | nil => rfl
  | cons a t ih =>
      show List.find? q ((if p a then f a else a) :: updateWhere p f t)
             = List.find? q (a :: t)
      obtain hqa | hqa := Bool.eq_false_or_eq_true (q a)
      · have hpa : p a = false := hdisj a hqa
        rw [if_neg (by simp [hpa])]
        rw [List.find?_cons_of_pos _ hqa, List.find?_cons_of_pos _ hqa]
      · have hhead : q (if p a then f a else a) = false := by
          obtain hpa | hpa := Bool.eq_false_or_eq_true (p a)
          · rw [if_pos hpa, hq]
            exact hqa
          · rw [if_neg (by simp [hpa])]
            exact hqa
        rw [List.find?_cons_of_neg _ (by simp [hhead])]
        rw [List.find?_cons_of_neg _ (by simp [hqa])]
        exact ih

/-- Effect of a points-or-level row update on getUser. -/
theorem getUser_usersUpdate (db : DB) (target uid : String) (f : User → User)
    (hid : ∀ v, (f v).id = v.id) :
    getUser { db with users := updateWhere (fun v => v.id == target) f db.users } uid
      = if uid = target then (getUser db uid).map f else getUser db uid := by
  unfold getUser
  by_cases h : uid = target
  · subst h
    rw [if_pos rfl]
    exact find?_updateWhere_self _ f (fun a => by rw [hid]) db.users
  · rw [if_neg h]
    refine find?_updateWhere_disjoint _ _ f (fun a => by rw [hid]) ?_ db.users
    intro a ha
    have ha2 : a.id = uid := by simpa using ha
    simp [ha2, h]

/-- Effect of a PR row update on getPR. -/
theorem getPR_prsUpdate (db : DB) (target prId : String)
    (f : PullRequest → PullRequest) (hid : ∀ p, (f p).id = p.id) :
    getPR { db with prs := updateWhere (fun p => p.id == target) f db.prs } prId
      = if prId = target then (getPR db prId).map f else getPR db prId := by
  unfold getPR
  by_cases h : prId = target
  · subst h
    rw [if_pos rfl]
    exact find?_updateWhere_self _ f (fun a => by rw [hid]) db.prs
  · rw [if_neg h]
    refine find?_updateWhere_disjoint _ _ f (fun a => by rw [hid]) ?_ db.prs
    intro a ha
    have ha2 : a.id = prId := by simpa using ha
    simp [ha2, h]

/-- checkAndUpdateUserLevel only rewrites user rows. -/
theorem checkLevel_transactions (uid acct : String) (db : DB) :
    (checkAndUpdateUserLevel uid acct db).transactions = db.transactions := by
  unfold checkAndUpdateUserLevel
  split
  · rfl
  · dsimp only
    split <;> rfl

theorem checkLevel_prs (uid acct : String) (db : DB) :
    (checkAndUpdateUserLevel uid acct db).prs = db.prs := by
  unfold checkAndUpdateUserLevel
  split
  · rfl
  · dsimp only
    split <;> rfl

theorem getPR_checkLevel (uid acct prId : String) (db : DB) :
    getPR (checkAndUpdateUserLevel uid acct db) prId = getPR db prId := by
  unfold getPR
  rw [checkLevel_prs]

/-- checkAndUpdateUserLevel keeps every user present, preserves points,
and never lowers a level. -/
theorem getUser_checkLevel (uid acct uid2 : String) (db : DB) (u1 : User)
    (h : getUser db uid2 = some u1) :
    ∃ u2, getUser (checkAndUpdateUserLevel uid acct db) uid2 = some u2 ∧
      u2.points = u1.points ∧ u1.level ≤ u2.level := by
  unfold checkAndUpdateUserLevel
  cases hg : getUser db uid with
  | none => exact ⟨u1, h, rfl, le_refl _⟩
  | some u =>
      dsimp only
      by_cases hlt : u.points.fdiv 100 + 1 > u.level
      · rw [if_pos hlt]
        rw [getUser_usersUpdate db uid uid2
          (fun v => { v with level := u.points.fdiv 100 + 1 }) (fun v => rfl)]
        by_cases he : uid2 = uid
        · subst he
          rw [if_pos rfl, h]
          have hu : u1 = u := by
            rw [h] at hg
            exact Option.some.inj hg
          exact ⟨_, rfl, rfl, by rw [hu]; exact le_of_lt hlt⟩
        · rw [if_neg he, h]
          exact ⟨u1, rfl, rfl, le_refl _⟩
      · rw [if_neg hlt]
        exact ⟨u1, h, rfl, le_refl _⟩


/-- getUser is unchanged by appending a ledger row. -/
theorem getUser_addTransaction (d : DB) (t : PointTransaction) (uid : String) :
    getUser (addTransaction d t) uid = getUser d uid := rfl

/-- getUser is unchanged by setting pointsAwarded on a PR. -/
theorem getUser_setPointsAwarded (d : DB) (prId : String) (pts : Int) (uid : String) :
    getUser (setPointsAwarded d prId pts) uid = getUser d uid := rfl

/-- getPR is unchanged by appending a ledger row. -/
theorem getPR_addTransaction (d : DB) (t : PointTransaction) (prId : String) :
    getPR (addTransaction d t) prId = getPR d prId := rfl

/-- getPR is unchanged by a points increment. -/
theorem getPR_incrPointsDB (d : DB) (target : String) (pts : Int) (prId : String) :
    getPR (incrPointsDB d target pts) prId = getPR d prId := rfl

/-- setPointsAwarded does not touch the ledger. -/
theorem transactions_setPointsAwarded (d : DB) (prId : String) (pts : Int) :
    (setPointsAwarded d prId pts).transactions = d.transactions := rfl

/-- Effect of the points increment on an arbitrary getUser query. -/
theorem getUser_incr_points (db : DB) (target uid : String) (pts : Int) (u : User)
    (h : getUser db uid = some u) :
    ∃ u1, getUser (incrPointsDB db target pts) uid = some u1 ∧
      u1.level = u.level ∧
      (uid = target → u1.points = u.points + pts) ∧
      (uid ≠ target → u1 = u) := by
  unfold incrPointsDB
  dsimp only
  rw [getUser_usersUpdate db target uid
    (fun v => { v with points := v.points + pts }) (fun v => rfl)]
  by_cases he : uid = target
  · rw [if_pos he, h]
    exact ⟨_, rfl, rfl, fun _ => rfl, fun hne => absurd he hne⟩
  · rw [if_neg he, h]
    exact ⟨u, rfl, rfl, fun hc => absurd hc he, fun _ => rfl⟩

/-- calculateAndAwardPoints never lowers any user level, and keeps every
user present. -/
theorem level_mono_award (prId uid : String) (db : DB) (u : User)
    (h : getUser db uid = some u) :
    ∃ u2, getUser (runE (calculateAndAwardPoints prId db)) uid = some u2 ∧
      u.level ≤ u2.level := by
  unfold calculateAndAwardPoints
  cases hpr : getPR db prId with
  | none => exact ⟨u, h, le_refl _⟩
  | some pr =>
    dsimp only
    cases hsc : pr.overallScore with
    | none => exact ⟨u, h, le_refl _⟩
    | some s =>
      dsimp only
      by_cases hs0 : s = 0
      · rw [if_pos hs0]
        exact ⟨u, h, le_refl _⟩
      · rw [if_neg hs0]
        cases hrepo : getRepo db pr.repositoryId with
        | none => exact ⟨u, h, le_refl _⟩
        | some repo =>
          dsimp only
          cases hm : getMembership db pr.authorId repo.accountId with
          | none => exact ⟨u, h, le_refl _⟩
          | some m =>
            dsimp only
            unfold updateUserPointsScoped
            cases hau : getUser db pr.authorId with
            | none => exact ⟨u, h, le_refl _⟩
            | some au =>
              dsimp only
              by_cases hacct : au.accountId = repo.accountId
              · rw [if_pos hacct]
                obtain ⟨u1, hu1, hlvl, _, _⟩ :=
                  getUser_incr_points db pr.authorId uid (round s) u h
                obtain ⟨u2, hu2, _, hl2⟩ :=
                  getUser_checkLevel pr.authorId repo.accountId uid _ u1
                    ((getUser_setPointsAwarded _ prId (round s) uid).trans
                      ((getUser_addTransaction _ _ uid).trans hu1))
                exact ⟨u2, hu2, le_trans (le_of_eq hlvl.symm) hl2⟩
              · rw [if_neg hacct]
                exact ⟨u, h, le_refl _⟩

/-- awardPointsForReview never lowers any user level, and keeps every
user present. -/
theorem level_mono_review (reviewer prId state uid : String) (db : DB) (u : User)
    (h : getUser db uid = some u) :
    ∃ u2, getUser (runE (awardPointsForReview reviewer prId state db)) uid = some u2 ∧
      u.level ≤ u2.level := by
  unfold awardPointsForReview
  by_cases hpts : reviewPoints state > 0
  · rw [if_pos hpts]
    cases hpr : getPR db prId with
    | none => exact ⟨u, h, le_refl _⟩
    | some pr =>
      dsimp only
      cases hrepo : getRepo db pr.repositoryId with
      | none => exact ⟨u, h, le_refl _⟩
      | some repo =>
        dsimp only
        unfold updateUserPointsById
        cases hau : getUser db reviewer with
        | none => exact ⟨u, h, le_refl _⟩
        | some au =>
          dsimp only
          obtain ⟨u1, hu1, hlvl, _, _⟩ :=
            getUser_incr_points db reviewer uid (reviewPoints state) u h
          obtain ⟨u2, hu2, _, hl2⟩ :=
            getUser_checkLevel reviewer repo.accountId uid _ u1
              ((getUser_addTransaction _ _ uid).trans hu1)
          exact ⟨u2, hu2, le_trans (le_of_eq hlvl.symm) hl2⟩
  · rw [if_neg hpts]
    exact ⟨u, h, le_refl _⟩

/-! ## Claim theorems -/

/-- C1: for every error message, isRetryableError classifies it as
non-retryable exactly when the message contains "not found",
"invalid signature" or "already exists", and retryable otherwise; in
particular "Pull request not found" is non-retryable and
"connection timeout" is retryable. -/
theorem C1_isRetryableError_classification :
    (∀ msg : String,
      (isRetryableError msg = false ↔
        (strContains msg "not found" = true ∨
         strContains msg "invalid signature" = true ∨
         strContains msg "already exists" = true))) ∧
    isRetryableError "Pull request not found" = false ∧
    isRetryableError "connection timeout" = true := by
  refine ⟨?_, by decide, by decide⟩
  intro msg
  unfold isRetryableError
  cases strContains msg "not found" <;>
    cases strContains msg "invalid signature" <;>
      cases strContains msg "already exists" <;> simp

/-- C2: mapPRState returns MERGED whenever the merged flag is set,
regardless of the raw state string; with the flag clear it returns OPEN
exactly for the raw state "open" and CLOSED for every other string. -/
theorem C2_mapPRState_spec :
    ∀ s t : String,
      mapPRState s true = PRState.MERGED ∧
      mapPRState t false =
        (if t = "open" then PRState.OPEN else PRState.CLOSED) := by
  intro s t
  constructor
  · rfl
  · unfold mapPRState
    simp

/-- C3 counterexample: with an encryption capability that throws,
storing a CLOSED PR with a plain non-null description makes the
encryption error propagate out of storePullRequest, instead of falling
back to the plaintext as the claim states for both operations. -/
theorem C3_counterexample_store_propagates :
    storePullRequestDescription encAlwaysFail isEncNever PRState.CLOSED
      (some "secret") = Except.error "ENCRYPTION_KEY missing" := rfl

/-- C3 (amended): for a CLOSED or MERGED state and a non-empty,
not-already-encrypted description, both operations persist the
ciphertext when encryption succeeds; when encryption throws,
updatePullRequestStatus falls back to persisting the plaintext without
propagating, while storePullRequest propagates the error. -/
theorem C3_description_encryption (enc : String → Except String String)
    (isEnc : String → Bool) (st : PRState) (d e err : String)
    (hst : st = PRState.CLOSED ∨ st = PRState.MERGED)
    (hd : d ≠ "") (hplain : isEnc d = false) :
    (enc d = Except.ok e →
      storePullRequestDescription enc isEnc st (some d) = Except.ok (some e) ∧
      updateStatusDescription enc isEnc (some d) = some e) ∧
    (enc d = Except.error err →
      storePullRequestDescription enc isEnc st (some d) = Except.error err ∧
      updateStatusDescription enc isEnc (some d) = some d) := by
  constructor
  · intro hok
    rcases hst with rfl | rfl <;>
      simp [storePullRequestDescription, updateStatusDescription,
        hd, hplain, hok, Except.map]
  · intro herr
    rcases hst with rfl | rfl <;>
      simp [storePullRequestDescription, updateStatusDescription,
        hd, hplain, herr, Except.map]

/-- C3 witness: the amended statement at concrete inputs, one successful
encryption and one failing encryption. -/
theorem C3_description_encryption_witness :
    (storePullRequestDescription encTag isEncNever PRState.CLOSED
        (some "secret") = Except.ok (some "enc:secret") ∧
      updateStatusDescription encTag isEncNever (some "secret")
        = some "enc:secret") ∧
    (storePullRequestDescription encAlwaysFail isEncNever PRState.MERGED
        (some "secret") = Except.error "ENCRYPTION_KEY missing" ∧
      updateStatusDescription encAlwaysFail isEncNever (some "secret")
        = some "secret") := by
  constructor
  · exact (C3_description_encryption encTag isEncNever PRState.CLOSED
      "secret" "enc:secret" "x" (Or.inl rfl) (by decide) rfl).1 rfl
  · exact (C3_description_encryption encAlwaysFail isEncNever PRState.MERGED
      "secret" "x" "ENCRYPTION_KEY missing" (Or.inr rfl) (by decide) rfl).2 rfl

/-- Setting pointsAwarded rewrites exactly the queried PR row. -/
theorem getPR_setPointsAwarded_self (d : DB) (prId : String) (pts : Int) :
    getPR (setPointsAwarded d prId pts) prId
      = (getPR d prId).map (fun p => { p with pointsAwarded := some pts }) := by
  unfold setPointsAwarded
  rw [getPR_prsUpdate d prId prId
    (fun p => { p with pointsAwarded := some pts }) (fun p => rfl)]
  rw [if_pos rfl]

/-- C4 (amended): on a merged PR whose overall score is non-null and
non-zero (zero is falsy in JavaScript and aborts the function early),
and whose author user row belongs to the repository account, awarding
checks the UserOrganization membership first: if it is absent the
operation returns with no state change and no throw; if present it
increments the author points by round(overallScore), appends exactly
one pr_merged PointTransaction of that amount, and persists
pointsAwarded = round(overallScore) on the PR. -/
theorem C4_award_points_on_merge (db : DB) (prId : String) (pr : PullRequest)
    (repo : Repository) (s : ℚ) (author : User)
    (hpr : getPR db prId = some pr)
    (hscore : pr.overallScore = some s) (hs : s ≠ 0)
    (hrepo : getRepo db pr.repositoryId = some repo)
    (hauthor : getUser db pr.authorId = some author)
    (hacct : author.accountId = repo.accountId) :
    (getMembership db pr.authorId repo.accountId = none →
      calculateAndAwardPoints prId db = Except.ok db) ∧
    (∀ m, getMembership db pr.authorId repo.accountId = some m →
      ∃ db2, calculateAndAwardPoints prId db = Except.ok db2 ∧
        db2.transactions = db.transactions ++
          [{ userId := pr.authorId, accountId := repo.accountId,
             amount := round s, reason := "pr_merged",
             referenceId := prId, referenceType := "pullrequest" }] ∧
        (∃ author2, getUser db2 pr.authorId = some author2 ∧
          author2.points = author.points + round s) ∧
        (∃ pr2, getPR db2 prId = some pr2 ∧
          pr2.pointsAwarded = some (round s))) := by
  unfold calculateAndAwardPoints
  rw [hpr]
  dsimp only
  rw [hscore]
  dsimp only
  rw [if_neg hs, hrepo]
  dsimp only
  constructor
  · intro hm
    rw [hm]
  · intro m hm
    rw [hm]
    dsimp only
    unfold updateUserPointsScoped
    rw [hauthor]
    dsimp only
    rw [if_pos hacct]
    refine ⟨_, rfl, ?_, ?_, ?_⟩
    · rw [checkLevel_transactions]
      rfl
    · obtain ⟨u1, hu1, _, hpts1, _⟩ :=
        getUser_incr_points db pr.authorId pr.authorId (round s) author hauthor
      obtain ⟨u2, hu2, hpts2, _⟩ :=
        getUser_checkLevel pr.authorId repo.accountId pr.authorId _ u1
          ((getUser_setPointsAwarded _ prId (round s) pr.authorId).trans
            ((getUser_addTransaction _ _ pr.authorId).trans hu1))
      exact ⟨u2, hu2, by rw [hpts2, hpts1 rfl]⟩
    · refine ⟨{ pr with pointsAwarded := some (round s) }, ?_, rfl⟩
      rw [getPR_checkLevel, getPR_setPointsAwarded_self,
        getPR_addTransaction, getPR_incrPointsDB, hpr]
      rfl

/-- C4 counterexample: (a) with a non-null overall score of 0 (falsy in
JavaScript) the function returns before the membership check and awards
nothing, although the membership is present; (b) with the author homed
in another account the scoped points update throws although the
membership is present. -/
theorem C4_counterexample :
    ((getPR dbAwardZero "p1").map PullRequest.overallScore = some (some 0) ∧
      getMembership dbAwardZero "ua" "A" = some memberAward ∧
      calculateAndAwardPoints "p1" dbAwardZero = Except.ok dbAwardZero ∧
      dbAwardZero.transactions = []) ∧
    (getMembership dbAwardMismatch "ua" "A" = some memberAward ∧
      calculateAndAwardPoints "p1" dbAwardMismatch
        = Except.error dbAwardMismatch) := by
  exact ⟨⟨by decide, by decide, rfl, rfl⟩, by decide, rfl⟩

/-- C4 witness: merging p1 with overall score 85 in dbAward awards 85
points to alice, appends one pr_merged transaction of 85, and persists
pointsAwarded = 85. -/
theorem C4_award_points_on_merge_witness :
    ∃ db2, calculateAndAwardPoints "p1" dbAward = Except.ok db2 ∧
      db2.transactions = dbAward.transactions ++
        [{ userId := "ua", accountId := "A", amount := 85,
           reason := "pr_merged", referenceId := "p1",
           referenceType := "pullrequest" }] ∧
      (∃ author2, getUser db2 "ua" = some author2 ∧
        author2.points = 40 + 85) ∧
      (∃ pr2, getPR db2 "p1" = some pr2 ∧ pr2.pointsAwarded = some 85) := by
  have hr : round (85 : ℚ) = 85 := by norm_num
  have h := (C4_award_points_on_merge dbAward "p1" prAward repoAward 85
    userAward rfl rfl (by norm_num) rfl rfl rfl).2 memberAward rfl
  rw [hr] at h
  exact h

/-- C5: review points depend only on the review state (APPROVED 10,
CHANGES_REQUESTED 15, COMMENTED 5, anything else 0), and whenever the
awarded points are positive exactly one review_submitted
PointTransaction of that amount is appended for the reviewer. -/
theorem C5_review_points (db : DB) (userId prId state : String)
    (pr : PullRequest) (repo : Repository) (u : User)
    (hpr : getPR db prId = some pr)
    (hrepo : getRepo db pr.repositoryId = some repo)
    (hu : getUser db userId = some u) :
    reviewPoints "APPROVED" = 10 ∧
    reviewPoints "CHANGES_REQUESTED" = 15 ∧
    reviewPoints "COMMENTED" = 5 ∧
    (state ≠ "APPROVED" → state ≠ "CHANGES_REQUESTED" →
      state ≠ "COMMENTED" → reviewPoints state = 0) ∧
    (0 < reviewPoints state →
      ∃ db2, awardPointsForReview userId prId state db = Except.ok db2 ∧
        db2.transactions = db.transactions ++
          [{ userId := userId, accountId := repo.accountId,
             amount := reviewPoints state, reason := "review_submitted",
             referenceId := prId, referenceType := "pullrequest" }] ∧
        (∃ u2, getUser db2 userId = some u2 ∧
          u2.points = u.points + reviewPoints state)) ∧
    (reviewPoints state = 0 →
      awardPointsForReview userId prId state db = Except.ok db) := by
  refine ⟨rfl, rfl, rfl, ?_, ?_, ?_⟩
  · intro h1 h2 h3
    unfold reviewPoints
    split <;> simp_all
  · intro hpos
    unfold awardPointsForReview
    rw [if_pos hpos, hpr]
    dsimp only
    rw [hrepo]
    dsimp only
    unfold updateUserPointsById
    rw [hu]
    dsimp only
    refine ⟨_, rfl, ?_, ?_⟩
    · rw [checkLevel_transactions]
      rfl
    · obtain ⟨u1, hu1, _, hpts1, _⟩ :=
        getUser_incr_points db userId userId (reviewPoints state) u hu
      obtain ⟨u2, hu2, hpts2, _⟩ :=
        getUser_checkLevel userId repo.accountId userId _ u1
          ((getUser_addTransaction _ _ userId).trans hu1)
      exact ⟨u2, hu2, by rw [hpts2, hpts1 rfl]⟩
  · intro h0
    unfold awardPointsForReview
    rw [if_neg (by rw [h0]; exact lt_irrefl 0)]

/-- C5 witness: an APPROVED review on p1 in dbReview awards 10 points
to reviewer rv and appends one review_submitted transaction of 10. -/
theorem C5_review_points_witness :
    reviewPoints "APPROVED" = 10 ∧
    (∃ db2, awardPointsForReview "rv" "p1" "APPROVED" dbReview = Except.ok db2 ∧
      db2.transactions = dbReview.transactions ++
        [{ userId := "rv", accountId := "A", amount := 10,
           reason := "review_submitted", referenceId := "p1",
           referenceType := "pullrequest" }] ∧
      (∃ u2, getUser db2 "rv" = some u2 ∧ u2.points = 95 + 10)) := by
  have h := C5_review_points dbReview "rv" "p1" "APPROVED" prAward repoAward
    reviewerUser rfl rfl rfl
  exact ⟨h.1, h.2.2.2.2.1 (by decide)⟩

/-- C6 counterexample: on a payload carrying installation.account.id = 1
and organization.id = 2, the push handler resolves account 2 while the
claimed four-step precedence resolves account 1: the push handler does
not follow the claimed order. -/
theorem C6_counterexample :
    resolveAccountIdPush payloadBoth = some "2" ∧
    specAccountIdOrder payloadBoth = some "1" ∧
    resolveAccountIdPush payloadBoth ≠ specAccountIdOrder payloadBoth := by
  exact ⟨rfl, rfl, by decide⟩

/-- C6 (amended): the pull_request, pull_request_review and
issue_comment handlers resolve the account id by the four-step
precedence installation.account.id, organization.id,
repository.owner.id, sender.id, dropping the event (none) exactly when
all four are absent; the push handler never consults
installation.account.id and applies the same order to the remaining
three candidates, dropping the event exactly when those three are
absent. -/
theorem C6_account_id_resolution :
    ∀ p : WebhookIds,
      resolveAccountIdPullRequest p = specAccountIdOrder p ∧
      resolveAccountIdReview p = specAccountIdOrder p ∧
      resolveAccountIdIssueComment p = specAccountIdOrder p ∧
      resolveAccountIdPush p
        = specAccountIdOrder { p with installationAccountId := none } ∧
      (specAccountIdOrder p = none ↔
        p.installationAccountId = none ∧ p.organizationId = none ∧
        p.repositoryOwnerId = none ∧ p.senderId = none) ∧
      (resolveAccountIdPush p = none ↔
        p.organizationId = none ∧ p.repositoryOwnerId = none ∧
        p.senderId = none) := by
  intro p
  obtain ⟨i, o, r, s⟩ := p
  cases i <;> cases o <;> cases r <;> cases s <;>
    simp [resolveAccountIdPullRequest, resolveAccountIdReview,
      resolveAccountIdIssueComment, resolveAccountIdPush,
      specAccountIdOrder]

/-- Rows kept by the negated filter never satisfy the filter. -/
theorem filter_not_filter {α : Type} (p : α → Bool) (l : List α) :
    (l.filter (fun a => !(p a))).filter p = [] := by
  induction l with
  | nil => rfl
  | cons a t ih =>
      obtain hpa | hpa := Bool.eq_false_or_eq_true (p a)
      · simp [List.filter_cons, hpa, ih]
      · simp [List.filter_cons, hpa, ih]

/-- Filtering is idempotent. -/
theorem filter_idem {α : Type} (q : α → Bool) (l : List α) :
    (l.filter q).filter q = l.filter q := by
  induction l with
  | nil => rfl
  | cons a t ih =>
      obtain hqa | hqa := Bool.eq_false_or_eq_true (q a)
      · simp [List.filter_cons, hqa, ih]
      · simp [List.filter_cons, hqa, ih]

/-- Every inserted file row carries the PR id it was built for. -/
theorem filter_map_mkFileRow (prId : String) (files : List FileData) :
    (files.map (mkFileRow prId)).filter (fun f => f.pullRequestId == prId)
      = files.map (mkFileRow prId) := by
  induction files with
  | nil => rfl
  | cons a t ih => simp [List.filter_cons, mkFileRow, ih]

/-- No inserted file row survives the negated filter. -/
theorem filter_not_map_mkFileRow (prId : String) (files : List FileData) :
    (files.map (mkFileRow prId)).filter
      (fun f => !(f.pullRequestId == prId)) = [] := by
  induction files with
  | nil => rfl
  | cons a t ih => simp [List.filter_cons, mkFileRow, ih]

/-- C7 (amended): for every NON-EMPTY file list, storePullRequestFiles
first deletes all existing rows of the PR and inserts exactly the given
set, so the persisted rows for the PR afterwards are exactly the given
list, and a second identical call changes nothing; an empty list
returns early without deleting anything. -/
theorem C7_files_full_replace (prId : String) (files : List FileData)
    (db : DB) (hne : files ≠ []) :
    filesFor (storePullRequestFiles prId files db) prId
      = files.map (mkFileRow prId) ∧
    storePullRequestFiles prId files (storePullRequestFiles prId files db)
      = storePullRequestFiles prId files db := by
  have hie : files.isEmpty = false := by
    cases files with
    | nil => exact absurd rfl hne
    | cons a t => rfl
  constructor
  · unfold storePullRequestFiles filesFor
    rw [if_neg (by simp [hie])]
    dsimp only
    rw [List.filter_append, filter_not_filter, filter_map_mkFileRow,
      List.nil_append]
  · unfold storePullRequestFiles
    rw [if_neg (by simp [hie]), if_neg (by simp [hie])]
    dsimp only
    have hkept :
        ((db.prFiles.filter (fun f => !(f.pullRequestId == prId)))
            ++ files.map (mkFileRow prId)).filter
          (fun f => !(f.pullRequestId == prId))
          = db.prFiles.filter (fun f => !(f.pullRequestId == prId)) := by
      rw [List.filter_append, filter_idem, filter_not_map_mkFileRow,
        List.append_nil]
    rw [hkept]

/-- C7 witness: storing one file for PR 1 in a state holding a stale row
replaces the row set exactly, and a second identical call is a no-op. -/
theorem C7_files_full_replace_witness :
    filesFor (storePullRequestFiles "1" [newFile] dbFiles) "1"
      = [mkFileRow "1" newFile] ∧
    storePullRequestFiles "1" [newFile] (storePullRequestFiles "1" [newFile] dbFiles)
      = storePullRequestFiles "1" [newFile] dbFiles := by
  exact C7_files_full_replace "1" [newFile] dbFiles (by decide)

/-- C7 counterexample: calling storePullRequestFiles with an empty file
list returns early without deleting, so the persisted rows for the PR
are NOT the given (empty) list: the stale row survives. -/
theorem C7_counterexample :
    storePullRequestFiles "1" [] dbFiles = dbFiles ∧
    filesFor (storePullRequestFiles "1" [] dbFiles) "1" = [oldFileRow] ∧
    ([] : List FileData).map (mkFileRow "1") = [] := by
  exact ⟨rfl, by decide, rfl⟩

/-- The foldl step of pickEarliest, with a some accumulator, returns the
first row among those with minimal committedAt. -/
theorem pickEarliest_go (t : List Commit) (b : Commit) :
    ∃ m, List.foldl (fun acc c =>
        match acc with
        | none => some c
        | some x => if c.committedAt < x.committedAt then some c else some x)
      (some b) t = some m ∧
      (m = b ∨ m ∈ t) ∧ m.committedAt ≤ b.committedAt ∧
      ∀ c ∈ t, m.committedAt ≤ c.committedAt := by
  induction t generalizing b with
  | nil => exact ⟨b, rfl, Or.inl rfl, le_refl _, by simp⟩
  | cons a t ih =>
      rw [List.foldl_cons]
      dsimp only
      by_cases hab : a.committedAt < b.committedAt
      · rw [if_pos hab]
        obtain ⟨m, hm, hmem, hle, hall⟩ := ih a
        refine ⟨m, hm, ?_, le_trans hle (le_of_lt hab), ?_⟩
        · rcases hmem with rfl | h
          · exact Or.inr (List.mem_cons_self _ _)
          · exact Or.inr (List.mem_cons_of_mem _ h)
        · intro c hc
          rcases List.mem_cons.mp hc with rfl | h
          · exact hle
          · exact hall c h
      · rw [if_neg hab]
        obtain ⟨m, hm, hmem, hle, hall⟩ := ih b
        refine ⟨m, hm, ?_, hle, ?_⟩
        · rcases hmem with rfl | h
          · exact Or.inl rfl
          · exact Or.inr (List.mem_cons_of_mem _ h)
        · intro c hc
          rcases List.mem_cons.mp hc with rfl | h
          · exact le_trans hle (not_lt.mp hab)
          · exact hall c h

/-- pickEarliest on a non-empty list returns a member with minimal
committedAt. -/
theorem pickEarliest_spec (l : List Commit) (hl : l ≠ []) :
    ∃ m, pickEarliest l = some m ∧ m ∈ l ∧
      ∀ c ∈ l, m.committedAt ≤ c.committedAt := by
  cases l with
  | nil => exact absurd rfl hl
  | cons a t =>
      unfold pickEarliest
      rw [List.foldl_cons]
      dsimp only
      obtain ⟨m, hm, hmem, hle, hall⟩ := pickEarliest_go t a
      refine ⟨m, hm, ?_, ?_⟩
      · rcases hmem with rfl | h
        · exact List.mem_cons_self _ _
        · exact List.mem_cons_of_mem _ h
      · intro c hc
        rcases List.mem_cons.mp hc with rfl | h
        · exact hle
        · exact hall c h

/-- C8 (amended): when the linking loop completes without a swallowed
internal error, for an existing PR that ends up with at least one
linked commit, the persisted firstCommitAt equals the minimal
committedAt over all commits linked to the PR. -/
theorem C8_firstCommitAt_min (prId : String) (cs : List CommitData)
    (time : Nat) (db db1 : DB) (pr1 : PullRequest)
    (hcs : cs ≠ [])
    (hfold : foldE (processOneCommit prId time) db cs = Except.ok db1)
    (hpr1 : getPR db1 prId = some pr1)
    (hlinked : linkedCommits db1 prId ≠ []) :
    ∃ pr2 m,
      getPR (linkCommitsToPullRequest prId cs time db) prId = some pr2 ∧
      m ∈ linkedCommits (linkCommitsToPullRequest prId cs time db) prId ∧
      (∀ c ∈ linkedCommits (linkCommitsToPullRequest prId cs time db) prId,
        m.committedAt ≤ c.committedAt) ∧
      pr2.firstCommitAt = some m.committedAt := by
  have hie : cs.isEmpty = false := by
    cases cs with
    | nil => exact absurd rfl hcs
    | cons a t => rfl
  obtain ⟨m, hm, hmem, hall⟩ := pickEarliest_spec (linkedCommits db1 prId) hlinked
  have hm2 : earliestLinked db1 prId = some m := hm
  unfold linkCommitsToPullRequest
  rw [if_neg (by simp [hie]), hfold]
  dsimp only
  rw [hm2]
  dsimp only
  rw [hpr1]
  dsimp only
  have hl2 : linkedCommits (setFirstCommitAt db1 prId m.committedAt) prId
      = linkedCommits db1 prId := rfl
  refine ⟨{ pr1 with firstCommitAt := some m.committedAt }, m, ?_, ?_, ?_, rfl⟩
  · unfold setFirstCommitAt
    rw [getPR_prsUpdate db1 prId prId
      (fun p => { p with firstCommitAt := some m.committedAt }) (fun p => rfl)]
    rw [if_pos rfl, hpr1]
    rfl
  · rw [hl2]
    exact hmem
  · rw [hl2]
    exact hall

/-- C8 witness: three upstream commits of which one exists locally; all
three end up linked and firstCommitAt becomes the earliest committedAt
(30), as stated by the amended claim applied at this input. -/
theorem C8_firstCommitAt_min_witness :
    (∃ pr2 m,
      getPR (linkCommitsToPullRequest "p1" csLink 99 dbLink) "p1" = some pr2 ∧
      m ∈ linkedCommits (linkCommitsToPullRequest "p1" csLink 99 dbLink) "p1" ∧
      (∀ c ∈ linkedCommits (linkCommitsToPullRequest "p1" csLink 99 dbLink) "p1",
        m.committedAt ≤ c.committedAt) ∧
      pr2.firstCommitAt = some m.committedAt) ∧
    (linkedCommits (linkCommitsToPullRequest "p1" csLink 99 dbLink) "p1").length = 3 ∧
    (getPR (linkCommitsToPullRequest "p1" csLink 99 dbLink) "p1").map
      PullRequest.firstCommitAt = some (some 30) := by
  refine ⟨?_, by decide, by decide⟩
  exact C8_firstCommitAt_min "p1" csLink 99 dbLink
    (runE (foldE (processOneCommit "p1" 99) dbLink csLink)) prAward
    (by decide) rfl (by decide) (by decide)

/-- C8 counterexample: the second fetched commit payload lacks
commit.author.date, so the loop throws after linking the first commit;
the error is swallowed and linkCommitsToPullRequest completes with one
linked commit (committedAt 50) while firstCommitAt stays null, not the
minimum committedAt among linked commits. -/
theorem C8_counterexample :
    (linkedCommits (linkCommitsToPullRequest "p1" csLinkBad 99 dbLink) "p1").map
      Commit.committedAt = [50] ∧
    (getPR (linkCommitsToPullRequest "p1" csLinkBad 99 dbLink) "p1").map
      PullRequest.firstCommitAt = some none := by
  exact ⟨by decide, by decide⟩

/-- C9: the candidate level is floor(points / 100) + 1 and is stored
only when strictly greater (equivalently, the stored level becomes the
max of the old level and the candidate), and no sequence of point-award
operations ever lowers a user level. -/
theorem C9_level_monotone :
    (∀ (db : DB) (uid acct : String) (u : User), getUser db uid = some u →
      getUser (checkAndUpdateUserLevel uid acct db) uid
        = some { u with level := max u.level (u.points.fdiv 100 + 1) }) ∧
    (∀ (ops : List LedgerOp) (db : DB) (uid : String) (u u2 : User),
      getUser db uid = some u →
      getUser (applyLedgerOps db ops) uid = some u2 →
      u.level ≤ u2.level) := by
  constructor
  · intro db uid acct u hu
    unfold checkAndUpdateUserLevel
    rw [hu]
    dsimp only
    by_cases hlt : u.points.fdiv 100 + 1 > u.level
    · rw [if_pos hlt]
      rw [getUser_usersUpdate db uid uid
        (fun v => { v with level := u.points.fdiv 100 + 1 }) (fun v => rfl)]
      rw [if_pos rfl, hu]
      rw [max_eq_right (le_of_lt hlt)]
      rfl
    · rw [if_neg hlt]
      rw [hu, max_eq_left (not_lt.mp hlt)]
  · intro ops
    induction ops with
    | nil =>
        intro db uid u u2 hu hu2
        rw [applyLedgerOps, hu] at hu2
        exact le_of_eq (congrArg User.level (Option.some.inj hu2))
    | cons op rest ih =>
        intro db uid u u2 hu hu2
        have hstep : ∃ u1, getUser (applyLedgerOp db op) uid = some u1 ∧
            u.level ≤ u1.level := by
          cases op with
          | merge prId => exact level_mono_award prId uid db u hu
          | review r p st => exact level_mono_review r p st uid db u hu
        obtain ⟨u1, hu1, hl1⟩ := hstep
        exact le_trans hl1 (ih (applyLedgerOp db op) uid u1 u2 hu1 hu2)

/-- C9 witness: reviewer rv (95 points, level 1): the candidate level is
max 1 (floor(95/100)+1) = 1; after one APPROVED review award the level
is 2 and has not decreased. -/
theorem C9_level_monotone_witness :
    getUser (checkAndUpdateUserLevel "rv" "A" dbReview) "rv"
      = some { reviewerUser with level := max 1 (Int.fdiv 95 100 + 1) } ∧
    (1 : Int) ≤ ({ reviewerUser with points := 105, level := 2 } : User).level := by
  constructor
  · exact C9_level_monotone.1 dbReview "rv" "A" reviewerUser rfl
  · exact C9_level_monotone.2 [LedgerOp.review "rv" "p1" "APPROVED"]
      dbReview "rv" reviewerUser _ rfl (by decide)

/-- C10 (amended): when the user already exists, ensureUserExists never
modifies any user row (the whole users table is unchanged), and the
only possible state changes are the bootstrap insertion of the Account
row when the account is absent and the insertion of one UserOrganization
row when the membership is absent; every other table is untouched. -/
theorem C10_ensureUserExists_frame (userId login accountId : String)
    (db : DB) (u0 : User) (hu : getUser db userId = some u0) :
    (ensureUserExists userId login accountId db).users = db.users ∧
    (ensureUserExists userId login accountId db).prs = db.prs ∧
    (ensureUserExists userId login accountId db).repos = db.repos ∧
    (ensureUserExists userId login accountId db).commits = db.commits ∧
    (ensureUserExists userId login accountId db).prCommitLinks = db.prCommitLinks ∧
    (ensureUserExists userId login accountId db).prFiles = db.prFiles ∧
    (ensureUserExists userId login accountId db).transactions = db.transactions ∧
    (getAccount db accountId = none →
      (ensureUserExists userId login accountId db).accounts
        = db.accounts ++ [bootstrapAccountFromLogin accountId login]) ∧
    (∀ a, getAccount db accountId = some a →
      (ensureUserExists userId login accountId db).accounts = db.accounts) ∧
    (getMembership db userId accountId = none →
      (ensureUserExists userId login accountId db).userOrgs = db.userOrgs
        ++ [{ userId := userId, accountId := accountId, role := "member" }]) ∧
    (∀ m, getMembership db userId accountId = some m →
      (ensureUserExists userId login accountId db).userOrgs = db.userOrgs) := by
  have hkey : ensureUserExists userId login accountId db =
      (match getAccount db accountId, getMembership db userId accountId with
       | some _, some _ => db
       | some _, none =>
          { db with userOrgs := db.userOrgs
              ++ [{ userId := userId, accountId := accountId, role := "member" }] }
       | none, some _ =>
          { db with accounts := db.accounts
              ++ [bootstrapAccountFromLogin accountId login] }
       | none, none =>
          { db with
            accounts := db.accounts ++ [bootstrapAccountFromLogin accountId login],
            userOrgs := db.userOrgs
              ++ [{ userId := userId, accountId := accountId, role := "member" }] }) := by
    unfold ensureUserExists
    cases hacc : getAccount db accountId with
    | none =>
        dsimp only
        rw [show getUser { db with accounts := db.accounts
          ++ [bootstrapAccountFromLogin accountId login] } userId = some u0 from hu]
        dsimp only
        cases hm : getMembership db userId accountId with
        | none =>
            rw [show getMembership { db with accounts := db.accounts
              ++ [bootstrapAccountFromLogin accountId login] } userId accountId
              = none from hm]
        | some m =>
            rw [show getMembership { db with accounts := db.accounts
              ++ [bootstrapAccountFromLogin accountId login] } userId accountId
              = some m from hm]
    | some a =>
        dsimp only
        rw [hu]
        dsimp only
        cases hm : getMembership db userId accountId with
        | none => rfl
        | some m => rfl
  rw [hkey]
  cases getAccount db accountId <;> cases getMembership db userId accountId <;>
    dsimp only
  · exact ⟨rfl, rfl, rfl, rfl, rfl, rfl, rfl, fun _ => rfl,
      fun a h => Option.noConfusion h, fun _ => rfl,
      fun m h => Option.noConfusion h⟩
  · exact ⟨rfl, rfl, rfl, rfl, rfl, rfl, rfl, fun _ => rfl,
      fun a h => Option.noConfusion h, fun h => Option.noConfusion h,
      fun m _ => rfl⟩
  · exact ⟨rfl, rfl, rfl, rfl, rfl, rfl, rfl, fun h => Option.noConfusion h,
      fun a _ => rfl, fun _ => rfl, fun m h => Option.noConfusion h⟩
  · exact ⟨rfl, rfl, rfl, rfl, rfl, rfl, rfl, fun h => Option.noConfusion h,
      fun a _ => rfl, fun h => Option.noConfusion h, fun m _ => rfl⟩

/-- C10 witness: for the existing user u1 under the existing account A
with the membership already present, ensureUserExists changes nothing. -/
theorem C10_ensureUserExists_frame_witness :
    (ensureUserExists "u1" "uno" "A" dbEnsure).users = dbEnsure.users ∧
    (ensureUserExists "u1" "uno" "A" dbEnsure).accounts = dbEnsure.accounts ∧
    (ensureUserExists "u1" "uno" "A" dbEnsure).userOrgs = dbEnsure.userOrgs := by
  have h := C10_ensureUserExists_frame "u1" "uno" "A" dbEnsure userEnsure rfl
  refine ⟨h.1, ?_, ?_⟩
  · exact h.2.2.2.2.2.2.2.2.1 accountA rfl
  · exact h.2.2.2.2.2.2.2.2.2.2
      { userId := "u1", accountId := "A", role := "member" } rfl

/-- C10 counterexample: calling ensureUserExists for the existing user
u1 under the absent account B inserts an Account row, a state change
beyond the single membership insertion the claim allows. -/
theorem C10_counterexample :
    getUser dbEnsure "u1" = some userEnsure ∧
    (ensureUserExists "u1" "uno" "B" dbEnsure).accounts ≠ dbEnsure.accounts := by
  exact ⟨rfl, by decide⟩
